import Mathlib

/-!
# Verification of the `imaging.py` slice-and-overlay pipeline

Shallow embedding of the core processing path of the cardiology repository
(`src/imaging.py`): the NIfTI volume loader, the center-slice selector, the
region-mask deriver (`create_heart_mask` / `create_heart_shape_mask`), the
display normalizer of `slice_to_base64_with_overlay`, the measurement
aggregator, and the base64 data-URI / debug-file round trip.

Conventions of the embedding:
* numpy float64 values are idealised as rationals (`ℚ`); the renderer's
  non-finite handling (`np.nan_to_num`) is modelled on an explicit value type
  `FloatVal` with `nan` / `inf` / `-inf` constructors;
* numpy arrays are nested lists carrying their shape explicitly (numpy keeps
  the shape of an array even when a zero extent makes the data empty);
* operations that can raise an unguarded runtime exception in Python
  (out-of-range fancy indexing, `np.min` / `np.max` of an empty array) return
  `Except PipelineError _`, with the two `ValueError`s raised deliberately by
  `process_nifti` modelled as `PipelineError.invalidInput` (the spec's
  `InvalidInputError`) and the unguarded numpy exceptions as
  `PipelineError.unguarded`.
-/

deriving instance DecidableEq for Except

set_option maxRecDepth 100000

namespace Cardiology

/-- Errors surfaced by the pipeline.  `invalidInput` models the `ValueError`s
raised explicitly by `process_nifti` (the spec's `InvalidInputError`);
`unguarded` models runtime exceptions escaping from numpy (IndexError on
out-of-range indexing, ValueError on an empty reduction) that the code never
catches. -/
inductive PipelineError where
  | invalidInput (msg : String)
  | unguarded (msg : String)
deriving DecidableEq

/-- Message of the numpy IndexError raised when a center index is taken into an
axis of extent 0 (`data[:, :, k]` with `k >= shape[2]`, etc.). -/
def indexErrMsg : String := "IndexError: index out of bounds"

/-- Message of the numpy ValueError raised by `np.min` / `np.max` on an array
with no elements. -/
def zeroSizeMsg : String := "ValueError: zero-size array to reduction operation"

/-- A float64 value as produced by `img.get_fdata()`: either finite (idealised
as a rational) or one of the non-finite IEEE values. -/
inductive FloatVal where
  | fin (q : ℚ)
  | nan
  | inf
  | ninf
deriving DecidableEq

/-- The largest finite float64 value, `(2^53 - 1) * 2^971 = (2 - 2^-52) * 2^1023`
(`np.finfo(np.float64).max`), exactly as a rational. -/
def FLOAT_MAX : ℚ := (2 ^ 53 - 1) * 2 ^ 971

/-- `np.nan_to_num` with default arguments, as used at the top of
`slice_to_base64_with_overlay` (line 209): NaN goes to 0, `+inf` to the largest
finite float64, `-inf` to the most negative finite float64; finite values are
untouched. -/
def nanToNum : FloatVal → ℚ
  | .fin q => q
  | .nan => 0
  | .inf => FLOAT_MAX
  | .ninf => -FLOAT_MAX

/-- First step of the renderer (`slice_data = np.nan_to_num(slice_data)`),
applied elementwise to the raw 2D slice. -/
def rendererPreprocess (raw : List (List FloatVal)) : List (List ℚ) :=
  raw.map (fun row => row.map nanToNum)

/-- `np.min` over all elements of an array (given as the flattened value list);
`none` models the ValueError raised on a zero-size array. -/
def npMin : List ℚ → Option ℚ
  | [] => none
  | x :: xs => some (xs.foldl min x)

/-- `np.max` over all elements of an array (given as the flattened value list);
`none` models the ValueError raised on a zero-size array. -/
def npMax : List ℚ → Option ℚ
  | [] => none
  | x :: xs => some (xs.foldl max x)

/-- A 2D numpy array (one extracted slice): its shape `(r, c)` as carried by
numpy, and its rows. -/
structure Slice where
  r : ℕ
  c : ℕ
  data : List (List ℚ)
deriving DecidableEq

/-- The data really has the shape the `shape` attribute declares. -/
def Slice.wf (s : Slice) : Prop :=
  s.data.length = s.r ∧ ∀ row ∈ s.data, row.length = s.c

/-- All voxel values of the slice, in row-major order. -/
def Slice.vals (s : Slice) : List ℚ := s.data.flatten

/-- The epsilon of the mask normalizer (`1e-8` in `create_heart_mask`,
line 168). -/
def maskEps : ℚ := 1 / 100000000

/-- The thresholded mask of `create_heart_mask` (lines 168-173): min-max
normalize with the epsilon-guarded denominator, then keep pixels whose
normalized value lies strictly between 0.3 and 0.8. -/
def threshMask (s : Slice) (mn mx : ℚ) : List (List Bool) :=
  s.data.map (fun row => row.map (fun x =>
    decide ((3 : ℚ) / 10 < (x - mn) / (mx - mn + maskEps)
      ∧ (x - mn) / (mx - mn + maskEps) < (8 : ℚ) / 10)))

/-- `np.sum(mask)` on a boolean array: the number of `true` pixels. -/
def countTrue (m : List (List Bool)) : ℕ :=
  (m.map (fun row => row.countP id)).sum

/-- `create_heart_shape_mask` (lines 181-194): the disc of pixels at Euclidean
distance strictly less than `min(shape) // 4` from the center
`(shape[0] // 2, shape[1] // 2)`.  The source compares
`np.sqrt((x-cx)**2 + (y-cy)**2) < radius`; since the radius is a nonnegative
integer this is equivalent to comparing the squared distance with the squared
radius (lemma `sqrt_lt_radius_iff` below), which is how the entries are
computed here. -/
def create_heart_shape_mask (r c : ℕ) : List (List Bool) :=
  (List.range r).map (fun y : ℕ => (List.range c).map (fun x : ℕ =>
    decide (((x : ℤ) - (c / 2 : ℕ)) ^ 2 + ((y : ℤ) - (r / 2 : ℕ)) ^ 2
      < ((Nat.min r c / 4 : ℕ) : ℤ) ^ 2)))

/-- `create_heart_mask` (lines 163-179): epsilon-guarded min-max normalization,
band-pass threshold (0.3, 0.8), and the disc fallback when fewer than 100
pixels pass the threshold.  `np.min`/`np.max` of an empty slice raise, modelled
by the `unguarded` error. -/
def create_heart_mask (s : Slice) : Except PipelineError (List (List Bool)) :=
  match npMin s.vals, npMax s.vals with
  | some mn, some mx =>
    let m := threshMask s mn mx
    if countTrue m < 100 then .ok (create_heart_shape_mask s.r s.c) else .ok m
  | _, _ => .error (.unguarded zeroSizeMsg)

/-- The display normalization of `slice_to_base64_with_overlay`
(lines 212-217): if `max == min` the normalized image is `np.zeros(shape)`
(no epsilon), otherwise plain `(x - min) / (max - min)`. -/
def displayNormalize (d : List (List ℚ)) : Except PipelineError (List (List ℚ)) :=
  match npMin d.flatten, npMax d.flatten with
  | some mn, some mx =>
    if mx = mn then .ok (d.map (fun row => row.map (fun _ => 0)))
    else .ok (d.map (fun row => row.map (fun x => (x - mn) / (mx - mn))))
  | _, _ => .error (.unguarded zeroSizeMsg)

/-- The normalization stage of the renderer: `np.nan_to_num` first
(line 209), then the min-max display normalization (lines 212-217). -/
def rendererNormalizeStage (raw : List (List FloatVal)) :
    Except PipelineError (List (List ℚ)) :=
  displayNormalize (rendererPreprocess raw)

/-- A 3-dimensional numpy array: shape `(n0, n1, n2)` as carried by numpy, and
its data as nested lists (`data[i][j][k]`). -/
structure Volume where
  n0 : ℕ
  n1 : ℕ
  n2 : ℕ
  data : List (List (List ℚ))
deriving DecidableEq

/-- The nested lists really have the declared shape. -/
def Volume.wf (v : Volume) : Prop :=
  v.data.length = v.n0
    ∧ ∀ p ∈ v.data, p.length = v.n1 ∧ ∀ row ∈ p, row.length = v.n2

/-- `data[:, :, k]` (line 68): fix the last axis at `k`.  numpy bound-checks
`k` against `shape[2]` even when other axes are empty; an out-of-range `k`
raises IndexError. -/
def extractAxial (v : Volume) (k : ℕ) : Except PipelineError Slice :=
  if k < v.n2 then
    match v.data.mapM (fun p => p.mapM (fun row => row.get? k)) with
    | some d => .ok ⟨v.n0, v.n1, d⟩
    | none => .error (.unguarded indexErrMsg)
  else .error (.unguarded indexErrMsg)

/-- `data[:, k, :]` (line 69): fix the middle axis at `k`. -/
def extractCoronal (v : Volume) (k : ℕ) : Except PipelineError Slice :=
  if k < v.n1 then
    match v.data.mapM (fun p => p.get? k) with
    | some d => .ok ⟨v.n0, v.n2, d⟩
    | none => .error (.unguarded indexErrMsg)
  else .error (.unguarded indexErrMsg)

/-- `data[k, :, :]` (line 70): fix the first axis at `k`. -/
def extractSagittal (v : Volume) (k : ℕ) : Except PipelineError Slice :=
  if k < v.n0 then
    match v.data.get? k with
    | some d => .ok ⟨v.n1, v.n2, d⟩
    | none => .error (.unguarded indexErrMsg)
  else .error (.unguarded indexErrMsg)

/-- One `{"min": ..., "max": ..., "value": ...}` slider entry (lines 155-159).
The fields are integers so that Python's `shape[i] - 1` is represented exactly
even when an extent is 0. -/
structure AxisSlider where
  lo : ℤ
  hi : ℤ
  value : ℤ
deriving DecidableEq

/-- The `sliders` dictionary of `process_nifti` (lines 155-159):
`axial = {min: 0, max: shape[2]-1, value: shape[2]//2}`, coronal with
`shape[1]`, sagittal with `shape[0]`. -/
structure Sliders where
  axial : AxisSlider
  coronal : AxisSlider
  sagittal : AxisSlider
deriving DecidableEq

def slidersOf (n0 n1 n2 : ℕ) : Sliders :=
  ⟨⟨0, (n2 : ℤ) - 1, ((n2 / 2 : ℕ) : ℤ)⟩,
   ⟨0, (n1 : ℤ) - 1, ((n1 / 2 : ℕ) : ℤ)⟩,
   ⟨0, (n0 : ℤ) - 1, ((n0 / 2 : ℕ) : ℤ)⟩⟩

/-- The measurement block of `process_nifti` (lines 116-129), as exact
rationals (the source formats these into strings; the strings are purely
presentational). -/
structure Measurements where
  length_mm : ℚ
  width_mm : ℚ
  depth_mm : ℚ
  length_cm : ℚ
  width_cm : ℚ
  depth_cm : ℚ
  volume_cm3 : ℚ
  weight_g : ℚ
deriving DecidableEq

/-- Lines 116-129: `extent_mm = shape * spacing`, centimeters by dividing by
10, volume = product of cm extents times 0.3, weight = volume times 1.06. -/
def measurementsOf (n0 n1 n2 : ℕ) (sp : ℚ × ℚ × ℚ) : Measurements :=
  let length_mm : ℚ := (n0 : ℚ) * sp.1
  let width_mm : ℚ := (n1 : ℚ) * sp.2.1
  let depth_mm : ℚ := (n2 : ℚ) * sp.2.2
  let length_cm := length_mm / 10
  let width_cm := width_mm / 10
  let depth_cm := depth_mm / 10
  let volume_cm3 := (length_cm * width_cm * depth_cm) * (3 / 10)
  let weight_g := volume_cm3 * (106 / 100)
  ⟨length_mm, width_mm, depth_mm, length_cm, width_cm, depth_cm, volume_cm3, weight_g⟩

/-- Everything `process_nifti` computes from the validated volume that is not
an opaque matplotlib raster: the three extracted center slices, their region
masks, the measurements, and the slider bounds.  (The base64/PNG rendering is
modelled separately; see the base64 section below.) -/
structure PipeResult where
  axialSlice : Slice
  coronalSlice : Slice
  sagittalSlice : Slice
  axialMask : List (List Bool)
  coronalMask : List (List Bool)
  sagittalMask : List (List Bool)
  meas : Measurements
  sliders : Sliders
deriving DecidableEq

/-- Lines 60-161 of `process_nifti`, after the load/validation stage: compute
the three center indices (`shape[i] // 2`), extract the three slices (in
source order: axial, coronal, sagittal), derive the three region masks (same
order), then assemble measurements and sliders.  The first numpy exception
aborts the whole computation, exactly as in Python. -/
def pipeline3D (v : Volume) (sp : ℚ × ℚ × ℚ) : Except PipelineError PipeResult :=
  match extractAxial v (v.n2 / 2) with
  | .error e => .error e
  | .ok ax =>
    match extractCoronal v (v.n1 / 2) with
    | .error e => .error e
    | .ok cor =>
      match extractSagittal v (v.n0 / 2) with
      | .error e => .error e
      | .ok sag =>
        match create_heart_mask ax with
        | .error e => .error e
        | .ok ma =>
          match create_heart_mask cor with
          | .error e => .error e
          | .ok mc =>
            match create_heart_mask sag with
            | .error e => .error e
            | .ok ms =>
              .ok ⟨ax, cor, sag, ma, mc, ms,
                measurementsOf v.n0 v.n1 v.n2 sp, slidersOf v.n0 v.n1 v.n2⟩

/-! ## The load / validation stage (lines 35-57)

The loader is modelled over arrays of arbitrary dimensionality (a parsed NIfTI
container can hold a 2D, 3D, 4D, ... array): only the shape and the flattened
data are relevant to it.  `nib.load` / `get_fdata` themselves are external
library calls; their outcome is the loader's input, an `Except` holding either
the raised exception's message or the parsed image. -/

/-- A dense numpy array of arbitrary dimensionality: its shape tuple and its
row-major flattened data. -/
structure NDArray where
  dims : List ℕ
  flat : List ℚ
deriving DecidableEq

/-- A successfully parsed NIfTI container: the `get_fdata()` array and the
header's `get_zooms()` tuple. -/
structure RawNifti where
  arr : NDArray
  zooms : List ℚ
deriving DecidableEq

/-- Lines 52-57: take the first three declared zooms as the spacing when at
least three are declared, else fall back to `(1.0, 1.0, 1.0)`. -/
def spacingOf (zooms : List ℚ) : ℚ × ℚ × ℚ :=
  if 3 ≤ zooms.length then (zooms.getD 0 1, zooms.getD 1 1, zooms.getD 2 1)
  else (1, 1, 1)

/-- Lines 35-57 of `process_nifti`: on a parser exception re-raise as
`ValueError("Invalid NIfTI file: " + message)` (the spec's
`InvalidInputError`); reject arrays with fewer than 3 dimensions with
`ValueError("Uploaded scan is not a 3D volume")`; otherwise hand the array
(unchanged) and the spacing triple to the rest of the pipeline. -/
def loadStage (parsed : Except String RawNifti) :
    Except PipelineError (NDArray × (ℚ × ℚ × ℚ)) :=
  match parsed with
  | .error msg => .error (.invalidInput ("Invalid NIfTI file: " ++ msg))
  | .ok img =>
    if img.arr.dims.length < 3 then
      .error (.invalidInput "Uploaded scan is not a 3D volume")
    else .ok (img.arr, spacingOf img.zooms)

/-! ## Base64 encoding and the data-URI / debug-file round trip
(lines 232-247 of `slice_to_base64_with_overlay`)

The PNG bytes produced by `plt.savefig` are opaque (matplotlib); the round-trip
claim quantifies over an arbitrary byte stream.  `base64.b64encode` /
`base64.b64decode` use the standard RFC 4648 alphabet with `=` padding. -/

/-- The standard base64 alphabet. -/
def b64Chars : List Char :=
  ['A', 'B', 'C', 'D', 'E', 'F', 'G', 'H', 'I', 'J', 'K', 'L', 'M',
   'N', 'O', 'P', 'Q', 'R', 'S', 'T', 'U', 'V', 'W', 'X', 'Y', 'Z',
   'a', 'b', 'c', 'd', 'e', 'f', 'g', 'h', 'i', 'j', 'k', 'l', 'm',
   'n', 'o', 'p', 'q', 'r', 's', 't', 'u', 'v', 'w', 'x', 'y', 'z',
   '0', '1', '2', '3', '4', '5', '6', '7', '8', '9', '+', '/']

/-- The alphabet character of a sextet value. -/
def encChar (n : ℕ) : Char := b64Chars.getD n 'A'

/-- The sextet value of an alphabet character (`none` for a character outside
the alphabet). -/
def decChar (ch : Char) : Option ℕ := b64Chars.findIdx? (fun d => d = ch)

/-- `base64.b64encode` on a byte list (bytes as naturals below 256): groups of
three bytes become four sextet characters; a trailing group of one or two
bytes is padded with `=`. -/
def b64encode : List ℕ → List Char
  | [] => []
  | [a] => [encChar (a / 4), encChar (a % 4 * 16), '=', '=']
  | [a, b] => [encChar (a / 4), encChar (a % 4 * 16 + b / 16), encChar (b % 16 * 4), '=']
  | a :: b :: c :: rest =>
    encChar (a / 4) :: encChar (a % 4 * 16 + b / 16) :: encChar (b % 16 * 4 + c / 64)
      :: encChar (c % 64) :: b64encode rest

/-- `base64.b64decode` on the characters produced by `b64encode`: four
characters at a time, honouring `=` padding; `none` on malformed input. -/
def b64decode : List Char → Option (List ℕ)
  | [] => some []
  | w :: x :: y :: z :: rest =>
    match decChar w, decChar x with
    | some sw, some sx =>
      if z = '=' then
        if y = '=' then
          if rest = [] then some [sw * 4 + sx / 16] else none
        else
          match decChar y with
          | some sy =>
            if rest = [] then some [sw * 4 + sx / 16, sx % 16 * 16 + sy / 4] else none
          | none => none
      else
        match decChar y, decChar z, b64decode rest with
        | some sy, some sz, some tl =>
          some ((sw * 4 + sx / 16) :: (sx % 16 * 16 + sy / 4) :: (sy % 4 * 64 + sz) :: tl)
        | _, _, _ => none
    | _, _ => none
  | _ => none

/-- The fixed head of the returned data URL (line 247). -/
def dataUrlHead : List Char := "data:image/png;base64,".toList

/-- The data URL returned by `slice_to_base64_with_overlay` (line 247), given
the PNG bytes read back from the matplotlib buffer. -/
def dataUrlOf (png : List ℕ) : List Char := dataUrlHead ++ b64encode png

/-- The bytes written to `{name}_heart_segmented.png` (lines 241-243):
`base64.b64decode(img_base64)` of the encoded buffer contents. -/
def debugFileBytes (png : List ℕ) : Option (List ℕ) := b64decode (b64encode png)

/-! ## Helper lemmas -/

/-- `Except.isOk` is exactly "is an `ok`". -/
theorem except_isOk_iff {ε α : Type} (e : Except ε α) :
    e.isOk = true ↔ ∃ a, e = .ok a := by
  cases e <;> simp [Except.isOk, Except.toBool]

/-- Folding `min` over a list of copies of `q` starting at `q` stays at `q`. -/
theorem foldl_min_const (q : ℚ) :
    ∀ xs : List ℚ, (∀ y ∈ xs, y = q) → xs.foldl min q = q := by
  intro xs
  induction xs with
  | nil => intro _; rfl
  | cons a t ih =>
    intro h
    have ha : a = q := h a (by simp)
    simpa [ha, min_self] using ih (fun y hy => h y (by simp [hy]))

/-- Folding `max` over a list of copies of `q` starting at `q` stays at `q`. -/
theorem foldl_max_const (q : ℚ) :
    ∀ xs : List ℚ, (∀ y ∈ xs, y = q) → xs.foldl max q = q := by
  intro xs
  induction xs with
  | nil => intro _; rfl
  | cons a t ih =>
    intro h
    have ha : a = q := h a (by simp)
    simpa [ha, max_self] using ih (fun y hy => h y (by simp [hy]))

/-- `npMin` of a non-empty constant list. -/
theorem npMin_const (q : ℚ) (l : List ℚ) (hne : l ≠ []) (h : ∀ y ∈ l, y = q) :
    npMin l = some q := by
  cases l with
  | nil => exact absurd rfl hne
  | cons x xs =>
    have hx : x = q := h x (by simp)
    simp only [npMin, hx]
    rw [foldl_min_const q xs (fun y hy => h y (by simp [hy]))]

/-- `npMax` of a non-empty constant list. -/
theorem npMax_const (q : ℚ) (l : List ℚ) (hne : l ≠ []) (h : ∀ y ∈ l, y = q) :
    npMax l = some q := by
  cases l with
  | nil => exact absurd rfl hne
  | cons x xs =>
    have hx : x = q := h x (by simp)
    simp only [npMax, hx]
    rw [foldl_max_const q xs (fun y hy => h y (by simp [hy]))]

/-- An `Option`-valued `mapM` succeeds when every element succeeds, preserves
length, and every output comes from some input. -/
theorem mapM_option_some {α β : Type} (f : α → Option β) :
    ∀ l : List α, (∀ a ∈ l, (f a).isSome) →
      ∃ l', l.mapM f = some l' ∧ l'.length = l.length
        ∧ ∀ b ∈ l', ∃ a ∈ l, f a = some b := by
  intro l
  induction l with
  | nil => exact fun _ => ⟨[], by simp [List.mapM, List.mapM.loop], rfl, by simp⟩
  | cons a t ih =>
    intro h
    obtain ⟨b, hb⟩ := Option.isSome_iff_exists.mp (h a (by simp))
    obtain ⟨t', ht', hlen, hmem⟩ := ih (fun x hx => h x (by simp [hx]))
    refine ⟨b :: t', ?_, by simp [hlen], ?_⟩
    · rw [List.mapM_cons, hb, ht']; rfl
    · intro x hx
      rcases List.mem_cons.mp hx with rfl | hx
      · exact ⟨a, by simp, hb⟩
      · obtain ⟨a', ha', hfa'⟩ := hmem x hx
        exact ⟨a', by simp [ha'], hfa'⟩

/-- An `Option`-valued `mapM` preserves length. -/
theorem mapM_option_length {α β : Type} (f : α → Option β) :
    ∀ (l : List α) (l' : List β), l.mapM f = some l' → l'.length = l.length := by
  intro l
  induction l with
  | nil =>
    intro l' h
    simp [List.mapM, List.mapM.loop] at h
    simp [← h]
  | cons a t ih =>
    intro l' h
    rw [List.mapM_cons] at h
    cases hfa : f a with
    | none => rw [hfa] at h; simp at h
    | some b =>
      rw [hfa] at h
      cases hmt : t.mapM f with
      | none => rw [hmt] at h; simp at h
      | some t' =>
        rw [hmt] at h
        simp at h
        rw [← h]
        simp [ih t' hmt]

/-- An `Option`-valued `mapM` succeeds when every element succeeds. -/
theorem mapM_option_isSome {α β : Type} (f : α → Option β) (l : List α)
    (h : ∀ a ∈ l, (f a).isSome) : (l.mapM f).isSome := by
  obtain ⟨l', hl', _, _⟩ := mapM_option_some f l h
  rw [hl']
  rfl

/-- A nested list with a positive number of rows, all of positive length,
flattens to a non-empty list. -/
theorem flatten_ne_nil {α : Type} (d : List (List α)) (m : ℕ) (hd : d ≠ [])
    (hrow : ∀ row ∈ d, row.length = m) (hm : 0 < m) : d.flatten ≠ [] := by
  cases d with
  | nil => exact absurd rfl hd
  | cons r t =>
    have hr : r.length = m := hrow r (by simp)
    cases r with
    | nil => simp at hr; omega
    | cons x xs => simp

/-- A boolean matrix with no `true` entry has `countTrue` zero (contrapositive
of the non-emptiness argument). -/
theorem countTrue_eq_zero_of_not_any (m : List (List Bool))
    (h : m.any (fun row => row.any id) = false) : countTrue m = 0 := by
  rw [countTrue]
  apply List.sum_eq_zero
  intro x hx
  obtain ⟨row, hrow, rfl⟩ := List.mem_map.mp hx
  rw [List.any_eq_false] at h
  have hthis := h row hrow
  simp only [Bool.not_eq_true, List.any_eq_false] at hthis
  exact List.countP_eq_zero.mpr (fun b hb => by simpa using hthis b hb)

/-- A boolean matrix with a positive `countTrue` has a `true` entry. -/
theorem any_of_countTrue_pos (m : List (List Bool)) (h : 0 < countTrue m) :
    m.any (fun row => row.any id) = true := by
  by_contra hc
  have : m.any (fun row => row.any id) = false := by
    cases he : m.any (fun row => row.any id)
    · rfl
    · exact absurd he hc
  rw [countTrue_eq_zero_of_not_any m this] at h
  exact absurd h (by omega)

/-- On a well-formed volume, `data[:, :, k]` with `k < shape[2]` succeeds and
produces an array of shape `(shape[0], shape[1])`. -/
theorem extractAxial_wf_ok (v : Volume) (hwf : v.wf) (k : ℕ) (hk : k < v.n2) :
    ∃ d, extractAxial v k = .ok ⟨v.n0, v.n1, d⟩
      ∧ d.length = v.n0 ∧ ∀ row ∈ d, row.length = v.n1 := by
  obtain ⟨hlen, hp⟩ := hwf
  have hinner : ∀ p ∈ v.data,
      (List.mapM (fun row : List ℚ => row.get? k) p).isSome := by
    intro p hpmem
    apply mapM_option_isSome
    intro row hr
    rw [Option.isSome_iff_exists]
    have hkr : k < row.length := by rw [(hp p hpmem).2 row hr]; exact hk
    exact ⟨row.get ⟨k, hkr⟩, List.get?_eq_get hkr⟩
  obtain ⟨d, hd, hdlen, hdmem⟩ :=
    mapM_option_some (fun p : List (List ℚ) => List.mapM (fun row : List ℚ => row.get? k) p)
      v.data hinner
  refine ⟨d, ?_, by rw [hdlen, hlen], ?_⟩
  · rw [extractAxial, if_pos hk, hd]
  · intro row hrow
    obtain ⟨p, hpmem, hpeq⟩ := hdmem row hrow
    rw [mapM_option_length (fun row : List ℚ => row.get? k) p row hpeq, (hp p hpmem).1]

/-- On a well-formed volume, `data[:, k, :]` with `k < shape[1]` succeeds and
produces an array of shape `(shape[0], shape[2])`. -/
theorem extractCoronal_wf_ok (v : Volume) (hwf : v.wf) (k : ℕ) (hk : k < v.n1) :
    ∃ d, extractCoronal v k = .ok ⟨v.n0, v.n2, d⟩
      ∧ d.length = v.n0 ∧ ∀ row ∈ d, row.length = v.n2 := by
  obtain ⟨hlen, hp⟩ := hwf
  have hinner : ∀ p ∈ v.data, ((p : List (List ℚ)).get? k).isSome := by
    intro p hpmem
    rw [Option.isSome_iff_exists]
    have hkp : k < p.length := by rw [(hp p hpmem).1]; exact hk
    exact ⟨p.get ⟨k, hkp⟩, List.get?_eq_get hkp⟩
  obtain ⟨d, hd, hdlen, hdmem⟩ :=
    mapM_option_some (fun p : List (List ℚ) => p.get? k) v.data hinner
  refine ⟨d, ?_, by rw [hdlen, hlen], ?_⟩
  · rw [extractCoronal, if_pos hk, hd]
  · intro row hrow
    obtain ⟨p, hpmem, hpeq⟩ := hdmem row hrow
    have hmem : row ∈ p := List.get?_mem hpeq
    exact (hp p hpmem).2 row hmem

/-- On a well-formed volume, `data[k, :, :]` with `k < shape[0]` succeeds and
produces an array of shape `(shape[1], shape[2])`. -/
theorem extractSagittal_wf_ok (v : Volume) (hwf : v.wf) (k : ℕ) (hk : k < v.n0) :
    ∃ d, extractSagittal v k = .ok ⟨v.n1, v.n2, d⟩
      ∧ d.length = v.n1 ∧ ∀ row ∈ d, row.length = v.n2 := by
  obtain ⟨hlen, hp⟩ := hwf
  have hklen : k < v.data.length := by rw [hlen]; exact hk
  have hget : v.data.get? k = some (v.data.get ⟨k, hklen⟩) := List.get?_eq_get hklen
  have hmem : v.data.get ⟨k, hklen⟩ ∈ v.data := v.data.get_mem k hklen
  refine ⟨v.data.get ⟨k, hklen⟩, ?_, (hp _ hmem).1, (hp _ hmem).2⟩
  rw [extractSagittal, if_pos hk, hget]

/-- `create_heart_mask` never raises on a slice holding at least one value:
both branches of the threshold/fallback decision return `.ok`. -/
theorem create_heart_mask_ok (s : Slice) (hne : s.vals ≠ []) :
    (create_heart_mask s).isOk = true := by
  rcases hv : s.vals with _ | ⟨x, xs⟩
  · exact absurd hv hne
  · rw [create_heart_mask, hv]
    show (if _ then _ else _ : Except PipelineError _).isOk = true
    split <;> rfl

/-- `create_heart_mask` raises the zero-size reduction error exactly on an
empty slice. -/
theorem create_heart_mask_empty (s : Slice) (h : s.vals = []) :
    create_heart_mask s = .error (.unguarded zeroSizeMsg) := by
  rw [create_heart_mask, h]
  rfl

/-- Inverting a successful run of the post-load pipeline: every field of the
result is what the corresponding source line computes. -/
theorem pipeline3D_ok_inv (v : Volume) (sp : ℚ × ℚ × ℚ) (r : PipeResult)
    (h : pipeline3D v sp = .ok r) :
    r.meas = measurementsOf v.n0 v.n1 v.n2 sp
    ∧ r.sliders = slidersOf v.n0 v.n1 v.n2
    ∧ extractAxial v (v.n2 / 2) = .ok r.axialSlice
    ∧ extractCoronal v (v.n1 / 2) = .ok r.coronalSlice
    ∧ extractSagittal v (v.n0 / 2) = .ok r.sagittalSlice
    ∧ create_heart_mask r.axialSlice = .ok r.axialMask
    ∧ create_heart_mask r.coronalSlice = .ok r.coronalMask
    ∧ create_heart_mask r.sagittalSlice = .ok r.sagittalMask := by
  rw [pipeline3D] at h
  cases hax : extractAxial v (v.n2 / 2) with
  | error e => rw [hax] at h; cases h
  | ok ax =>
    rw [hax] at h; dsimp only at h
    cases hcor : extractCoronal v (v.n1 / 2) with
    | error e => rw [hcor] at h; cases h
    | ok cor =>
      rw [hcor] at h; dsimp only at h
      cases hsag : extractSagittal v (v.n0 / 2) with
      | error e => rw [hsag] at h; cases h
      | ok sag =>
        rw [hsag] at h; dsimp only at h
        cases hma : create_heart_mask ax with
        | error e => rw [hma] at h; cases h
        | ok ma =>
          rw [hma] at h; dsimp only at h
          cases hmc : create_heart_mask cor with
          | error e => rw [hmc] at h; cases h
          | ok mc =>
            rw [hmc] at h; dsimp only at h
            cases hms : create_heart_mask sag with
            | error e => rw [hms] at h; cases h
            | ok ms =>
              rw [hms] at h; dsimp only at h
              cases h
              exact ⟨rfl, rfl, rfl, rfl, rfl, hma, hmc, hms⟩

/-- A successful pipeline run forces all three extents to be positive: the
center index `shape[i] // 2` is in range only when `shape[i] > 0`. -/
theorem pipeline3D_ok_pos (v : Volume) (sp : ℚ × ℚ × ℚ) (r : PipeResult)
    (h : pipeline3D v sp = .ok r) : 0 < v.n0 ∧ 0 < v.n1 ∧ 0 < v.n2 := by
  obtain ⟨_, _, hax, hcor, hsag, _, _, _⟩ := pipeline3D_ok_inv v sp r h
  refine ⟨?_, ?_, ?_⟩
  · rw [extractSagittal] at hsag
    by_contra hn
    rw [if_neg (by omega)] at hsag
    cases hsag
  · rw [extractCoronal] at hcor
    by_contra hn
    rw [if_neg (by omega)] at hcor
    cases hcor
  · rw [extractAxial] at hax
    by_contra hn
    rw [if_neg (by omega)] at hax
    cases hax

/-- Sanity check for the disc-mask encoding: for an integer squared distance
and a natural radius, `np.sqrt(d) < radius` is the same test as `d < radius²`
(the form used by `create_heart_shape_mask` above). -/
theorem sqrt_lt_radius_iff (dx dy : ℤ) (rad : ℕ) :
    Real.sqrt ((dx ^ 2 + dy ^ 2 : ℤ) : ℝ) < (rad : ℝ)
      ↔ dx ^ 2 + dy ^ 2 < ((rad : ℤ)) ^ 2 := by
  rcases Nat.eq_zero_or_pos rad with hz | hpos
  · subst hz
    simp only [Nat.cast_zero]
    constructor
    · intro hlt
      exact absurd (lt_of_le_of_lt (Real.sqrt_nonneg _) hlt) (lt_irrefl 0)
    · intro hlt
      have h1 : (0 : ℤ) ≤ dx ^ 2 + dy ^ 2 := by positivity
      omega
  · have hrpos : (0 : ℝ) < (rad : ℝ) := by exact_mod_cast hpos
    rw [show ((dx ^ 2 + dy ^ 2 : ℤ) : ℝ) = (dx : ℝ) ^ 2 + (dy : ℝ) ^ 2 by push_cast; ring]
    rw [Real.sqrt_lt' hrpos]
    constructor
    · intro hlt
      have : ((dx ^ 2 + dy ^ 2 : ℤ) : ℝ) < (((rad : ℤ) ^ 2 : ℤ) : ℝ) := by push_cast; push_cast at hlt; linarith
      exact_mod_cast this
    · intro hlt
      have : ((dx ^ 2 + dy ^ 2 : ℤ) : ℝ) < (((rad : ℤ) ^ 2 : ℤ) : ℝ) := by exact_mod_cast hlt
      push_cast at this ⊢
      linarith

/-! ## Claim theorems -/

/-- C3: the volume loader fails with the spec's `InvalidInputError` carrying
the underlying parser's message on parse failure; fails with an
`InvalidInputError` stating the volume is not 3D for every array with fewer
than 3 dimensions — and in that case no continuation of the pipeline (in
particular no slicing) is ever run, since the error short-circuits every
`bind`; and succeeds otherwise. -/
theorem loader_error_spec :
    (∀ msg : String,
      loadStage (.error msg) = .error (.invalidInput ("Invalid NIfTI file: " ++ msg)))
    ∧ (∀ img : RawNifti, img.arr.dims.length < 3 →
        loadStage (.ok img) = .error (.invalidInput "Uploaded scan is not a 3D volume")
        ∧ ∀ f : NDArray × (ℚ × ℚ × ℚ) → Except PipelineError PipeResult,
          (loadStage (.ok img)).bind f
            = .error (.invalidInput "Uploaded scan is not a 3D volume"))
    ∧ (∀ img : RawNifti, 3 ≤ img.arr.dims.length →
        loadStage (.ok img) = .ok (img.arr, spacingOf img.zooms)) := by
  refine ⟨fun msg => rfl, fun img h => ?_, fun img h => ?_⟩
  · have he : loadStage (.ok img)
        = .error (.invalidInput "Uploaded scan is not a 3D volume") := by
      rw [loadStage, if_pos h]
    exact ⟨he, fun f => by rw [he]; rfl⟩
  · rw [loadStage, if_neg (by omega)]

/-- Witness for C3: a parse failure, a 2D array, and a valid 3D array, each at
a concrete input. -/
theorem loader_error_spec_instance :
    loadStage (Except.error "bad magic")
      = .error (.invalidInput "Invalid NIfTI file: bad magic")
    ∧ loadStage (.ok ⟨⟨[4, 4], List.replicate 16 0⟩, [1, 1]⟩)
      = .error (.invalidInput "Uploaded scan is not a 3D volume")
    ∧ loadStage (.ok ⟨⟨[2, 2, 2], List.replicate 8 0⟩, [2, 3, 4]⟩)
      = .ok (⟨[2, 2, 2], List.replicate 8 0⟩, (2, 3, 4)) :=
  ⟨loader_error_spec.1 "bad magic",
   (loader_error_spec.2.1 ⟨⟨[4, 4], List.replicate 16 0⟩, [1, 1]⟩ (by decide)).1,
   loader_error_spec.2.2 ⟨⟨[2, 2, 2], List.replicate 8 0⟩, [2, 3, 4]⟩ (by decide)⟩

/-- A 4-dimensional parsed NIfTI container (shape `(2,2,2,2)`). -/
def nifti4D : RawNifti := ⟨⟨[2, 2, 2, 2], List.replicate 16 0⟩, [1, 1, 1, 1]⟩

/-- C4 counterexample, refuting both guarantees of the claim.  (i) A 4D array
passes validation (`ndim >= 3`) and is returned with all four of its
dimensions — `process_nifti` never truncates the array to 3 dimensions
(`data = np.asarray(data)` on line 48 is the only transformation).  (ii) A
parsed container declaring the zooms `(0, 1, 1)` is accepted and its first
zoom is passed into the returned spacing unchecked —
`spacing = tuple(float(s) for s in raw_spacing[:3])` on line 55 performs no
positivity check, so the returned spacing is not always a triple of positive
values. -/
theorem loader_ndim_cex :
    (loadStage (.ok nifti4D) = .ok (nifti4D.arr, (1, 1, 1))
      ∧ nifti4D.arr.dims.length = 4)
    ∧ (loadStage (.ok ⟨⟨[2, 2, 2], List.replicate 8 0⟩, [0, 1, 1]⟩)
        = .ok (⟨[2, 2, 2], List.replicate 8 0⟩, (0, 1, 1))
      ∧ ¬(0 : ℚ) < (0 : ℚ)) := by
  refine ⟨⟨?_, rfl⟩, ?_, by norm_num⟩
  · rw [loadStage, if_neg (by decide)]
    rfl
  · rw [loadStage, if_neg (by decide)]
    rfl

/-- C4 (amended): after successful validation the returned array is the parsed
array unchanged, so it has at least 3 dimensions (more-than-3-dimensional
inputs are passed through, not truncated); the returned spacing is a 3-tuple —
the first three declared resolution values when at least three are declared,
`(1.0, 1.0, 1.0)` otherwise — and its components are positive whenever every
declared resolution value is positive (the code performs no positivity
check of its own). -/
theorem loader_output_spec (img : RawNifti) (h : 3 ≤ img.arr.dims.length) :
    loadStage (.ok img) = .ok (img.arr, spacingOf img.zooms)
    ∧ 3 ≤ img.arr.dims.length
    ∧ (img.zooms.length < 3 → spacingOf img.zooms = (1, 1, 1))
    ∧ (3 ≤ img.zooms.length →
        spacingOf img.zooms = (img.zooms.getD 0 1, img.zooms.getD 1 1, img.zooms.getD 2 1))
    ∧ ((∀ z ∈ img.zooms, 0 < z) →
        0 < (spacingOf img.zooms).1 ∧ 0 < (spacingOf img.zooms).2.1
          ∧ 0 < (spacingOf img.zooms).2.2) := by
  refine ⟨by rw [loadStage, if_neg (by omega)], h, fun hlt => ?_, fun hge => ?_, fun hpos => ?_⟩
  · rw [spacingOf, if_neg (by omega)]
  · rw [spacingOf, if_pos hge]
  · rw [spacingOf]
    rcases hz : img.zooms with _ | ⟨a, _ | ⟨b, _ | ⟨c, t⟩⟩⟩
    · exact ⟨by norm_num, by norm_num, by norm_num⟩
    · rw [if_neg (by simp)]
      exact ⟨by norm_num, by norm_num, by norm_num⟩
    · rw [if_neg (by simp)]
      exact ⟨by norm_num, by norm_num, by norm_num⟩
    · rw [if_pos (by simp)]
      rw [hz] at hpos
      exact ⟨hpos a (by simp), hpos b (by simp), hpos c (by simp)⟩

/-- Witness for C4 (amended): the concrete 4D container of the
counterexample's kind, and a 3D container with only two declared zooms. -/
theorem loader_output_spec_instance :
    loadStage (.ok ⟨⟨[3, 3, 3], []⟩, [5, 7]⟩) = .ok (⟨[3, 3, 3], []⟩, (1, 1, 1))
    ∧ spacingOf [5, 7] = (1, 1, 1) :=
  ⟨(loader_output_spec ⟨⟨[3, 3, 3], []⟩, [5, 7]⟩ (by decide)).1,
   (loader_output_spec ⟨⟨[3, 3, 3], []⟩, [5, 7]⟩ (by decide)).2.2.1 (by decide)⟩

/-- C5 counterexample: `np.nan_to_num` with default arguments does not replace
`+inf` with 0 — it replaces it with the largest finite float64
(`np.finfo(np.float64).max`), so the array entering normalization is not
"zeros where the original was non-finite". -/
theorem nan_to_num_inf_cex :
    nanToNum .inf = FLOAT_MAX ∧ nanToNum .ninf = -FLOAT_MAX
    ∧ nanToNum .inf ≠ 0 ∧ nanToNum .ninf ≠ 0 := by
  refine ⟨rfl, rfl, ?_, ?_⟩ <;> · rw [nanToNum]; norm_num [FLOAT_MAX]

/-- C5 (amended): before any normalization the renderer replaces, elementwise,
NaN with 0, `+inf` with the largest finite float64, `-inf` with the most
negative finite float64, and keeps every finite value unchanged; the
normalization stage then runs on exactly this cleaned array. -/
theorem nan_to_num_spec (raw : List (List FloatVal)) :
    rendererPreprocess raw = raw.map (fun row => row.map nanToNum)
    ∧ (∀ q : ℚ, nanToNum (.fin q) = q)
    ∧ nanToNum .nan = 0
    ∧ nanToNum .inf = FLOAT_MAX
    ∧ nanToNum .ninf = -FLOAT_MAX
    ∧ rendererNormalizeStage raw = displayNormalize (rendererPreprocess raw) :=
  ⟨rfl, fun _ => rfl, rfl, rfl, rfl, rfl⟩

/-- The all-positive 1x1x1 volume `[[[5]]]`, on which the whole pipeline
succeeds (its slice is constant, so all masks take the disc fallback with
radius 0). -/
def vUnit : Volume := ⟨1, 1, 1, [[[5]]]⟩

/-- C1: whenever `process_nifti` returns, the center-slice selector picked
`shape[i] // 2` on each axis — axial fixing the last axis, coronal the middle
axis, sagittal the first axis — and the returned sliders report, per axis,
`min = 0`, `max = extent - 1` and `value = extent // 2`, with
`0 ≤ value ≤ max`. -/
theorem sliders_center_spec (v : Volume) (sp : ℚ × ℚ × ℚ)
    (h : (pipeline3D v sp).isOk = true) :
    (pipeline3D v sp).toOption.map PipeResult.sliders = some (slidersOf v.n0 v.n1 v.n2)
    ∧ slidersOf v.n0 v.n1 v.n2
        = ⟨⟨0, (v.n2 : ℤ) - 1, ((v.n2 / 2 : ℕ) : ℤ)⟩,
           ⟨0, (v.n1 : ℤ) - 1, ((v.n1 / 2 : ℕ) : ℤ)⟩,
           ⟨0, (v.n0 : ℤ) - 1, ((v.n0 / 2 : ℕ) : ℤ)⟩⟩
    ∧ (pipeline3D v sp).toOption.map PipeResult.axialSlice
        = (extractAxial v (v.n2 / 2)).toOption
    ∧ (pipeline3D v sp).toOption.map PipeResult.coronalSlice
        = (extractCoronal v (v.n1 / 2)).toOption
    ∧ (pipeline3D v sp).toOption.map PipeResult.sagittalSlice
        = (extractSagittal v (v.n0 / 2)).toOption
    ∧ ((0 : ℤ) ≤ ((v.n2 / 2 : ℕ) : ℤ) ∧ ((v.n2 / 2 : ℕ) : ℤ) ≤ (v.n2 : ℤ) - 1)
    ∧ ((0 : ℤ) ≤ ((v.n1 / 2 : ℕ) : ℤ) ∧ ((v.n1 / 2 : ℕ) : ℤ) ≤ (v.n1 : ℤ) - 1)
    ∧ ((0 : ℤ) ≤ ((v.n0 / 2 : ℕ) : ℤ) ∧ ((v.n0 / 2 : ℕ) : ℤ) ≤ (v.n0 : ℤ) - 1) := by
  obtain ⟨r, hr⟩ := (except_isOk_iff _).mp h
  obtain ⟨hmeas, hsl, hax, hcor, hsag, _, _, _⟩ := pipeline3D_ok_inv v sp r hr
  obtain ⟨h0, h1, h2⟩ := pipeline3D_ok_pos v sp r hr
  refine ⟨by rw [hr, Except.toOption, Option.map, hsl], rfl,
    by rw [hr, hax]; rfl, by rw [hr, hcor]; rfl, by rw [hr, hsag]; rfl, ?_, ?_, ?_⟩
  · constructor
    · exact_mod_cast Nat.zero_le _
    · have hd : v.n2 / 2 < v.n2 := Nat.div_lt_self h2 (by omega)
      omega
  · constructor
    · exact_mod_cast Nat.zero_le _
    · have hd : v.n1 / 2 < v.n1 := Nat.div_lt_self h1 (by omega)
      omega
  · constructor
    · exact_mod_cast Nat.zero_le _
    · have hd : v.n0 / 2 < v.n0 := Nat.div_lt_self h0 (by omega)
      omega

/-- Witness for C1 at the concrete 1x1x1 volume. -/
theorem sliders_center_spec_instance :
    (pipeline3D vUnit (1, 1, 1)).toOption.map PipeResult.sliders = some (slidersOf 1 1 1)
    ∧ slidersOf 1 1 1 = ⟨⟨0, 0, 0⟩, ⟨0, 0, 0⟩, ⟨0, 0, 0⟩⟩ :=
  ⟨(sliders_center_spec vUnit (1, 1, 1) (by with_unfolding_all rfl)).1, by decide⟩

/-- C8: measurements are computed purely from shape and spacing — two
successful runs on volumes of equal shape (regardless of voxel data or masks)
report identical measurements, every successful run reports exactly the
arithmetic of lines 116-129, and for a `(10,10,10)` volume with spacing
`(1,1,1)` the volume is `0.3 cm³` and the weight exactly `0.318 g`. -/
theorem measurements_spec (v w : Volume) (sp : ℚ × ℚ × ℚ)
    (hv : (pipeline3D v sp).isOk = true) (hw : (pipeline3D w sp).isOk = true)
    (h0 : v.n0 = w.n0) (h1 : v.n1 = w.n1) (h2 : v.n2 = w.n2) :
    (pipeline3D v sp).toOption.map PipeResult.meas
      = (pipeline3D w sp).toOption.map PipeResult.meas
    ∧ (pipeline3D v sp).toOption.map PipeResult.meas
      = some (measurementsOf v.n0 v.n1 v.n2 sp)
    ∧ (∀ (n0 n1 n2 : ℕ) (s0 s1 s2 : ℚ),
        measurementsOf n0 n1 n2 (s0, s1, s2)
          = ⟨(n0 : ℚ) * s0, (n1 : ℚ) * s1, (n2 : ℚ) * s2,
             (n0 : ℚ) * s0 / 10, (n1 : ℚ) * s1 / 10, (n2 : ℚ) * s2 / 10,
             ((n0 : ℚ) * s0 / 10) * ((n1 : ℚ) * s1 / 10) * ((n2 : ℚ) * s2 / 10) * (3 / 10),
             ((n0 : ℚ) * s0 / 10) * ((n1 : ℚ) * s1 / 10) * ((n2 : ℚ) * s2 / 10) * (3 / 10)
               * (106 / 100)⟩)
    ∧ (measurementsOf 10 10 10 (1, 1, 1)).volume_cm3 = 3 / 10
    ∧ (measurementsOf 10 10 10 (1, 1, 1)).weight_g = 159 / 500 := by
  obtain ⟨rv, hrv⟩ := (except_isOk_iff _).mp hv
  obtain ⟨rw_, hrw⟩ := (except_isOk_iff _).mp hw
  have hmv := (pipeline3D_ok_inv v sp rv hrv).1
  have hmw := (pipeline3D_ok_inv w sp rw_ hrw).1
  refine ⟨?_, ?_, fun n0 n1 n2 s0 s1 s2 => rfl, by with_unfolding_all rfl,
    by with_unfolding_all rfl⟩
  · rw [hrv, hrw, Except.toOption, Except.toOption, Option.map, Option.map,
      hmv, hmw, h0, h1, h2]
  · rw [hrv, Except.toOption, Option.map, hmv]

/-- Witness for C8: two 1x1x1 volumes with different voxel data. -/
theorem measurements_spec_instance :
    (pipeline3D vUnit (1, 1, 1)).toOption.map PipeResult.meas
      = (pipeline3D ⟨1, 1, 1, [[[7]]]⟩ (1, 1, 1)).toOption.map PipeResult.meas
    ∧ (measurementsOf 10 10 10 (1, 1, 1)).volume_cm3 = 3 / 10 :=
  ⟨(measurements_spec vUnit ⟨1, 1, 1, [[[7]]]⟩ (1, 1, 1)
      (by with_unfolding_all rfl) (by with_unfolding_all rfl) rfl rfl rfl).1,
   (measurements_spec vUnit ⟨1, 1, 1, [[[7]]]⟩ (1, 1, 1)
      (by with_unfolding_all rfl) (by with_unfolding_all rfl) rfl rfl rfl).2.2.2.1⟩

/-- C7: on a slice whose voxel values are all identical, the mask normalizer
yields 0 everywhere (numerator 0, epsilon-guarded denominator), so the
thresholded mask is empty and `create_heart_mask` falls back to the disc; the
display normalizer takes its `max == min` branch and returns the all-zero
image. -/
theorem flat_slice_spec (s : Slice) (q : ℚ) (hall : ∀ x ∈ s.vals, x = q)
    (hne : s.vals ≠ []) :
    npMin s.vals = some q ∧ npMax s.vals = some q
    ∧ countTrue (threshMask s q q) = 0
    ∧ create_heart_mask s = .ok (create_heart_shape_mask s.r s.c)
    ∧ displayNormalize s.data = .ok (s.data.map (fun row => row.map (fun _ => 0))) := by
  have hmn := npMin_const q s.vals hne hall
  have hmx := npMax_const q s.vals hne hall
  have hcount : countTrue (threshMask s q q) = 0 := by
    rw [countTrue, threshMask]
    apply List.sum_eq_zero
    intro n hn
    simp only [List.map_map, List.mem_map] at hn
    obtain ⟨row, hrowmem, rfl⟩ := hn
    apply List.countP_eq_zero.mpr
    intro b hb
    obtain ⟨x, hx, rfl⟩ := List.mem_map.mp hb
    have hxq : x = q := hall x (List.mem_flatten.mpr ⟨row, hrowmem, hx⟩)
    subst hxq
    simp only [id, decide_eq_true_eq, not_and]
    rw [sub_self, zero_div]
    intro hlt
    exact absurd hlt (by norm_num)
  have hmask : create_heart_mask s = .ok (create_heart_shape_mask s.r s.c) := by
    rw [create_heart_mask, hmn, hmx]
    dsimp only
    rw [if_pos (by rw [hcount]; omega)]
  have hdisp : displayNormalize s.data
      = .ok (s.data.map (fun row => row.map (fun _ => 0))) := by
    rw [displayNormalize]
    rw [show s.data.flatten = s.vals from rfl, hmn, hmx]
    dsimp only
    rw [if_pos rfl]
  exact ⟨hmn, hmx, hcount, hmask, hdisp⟩

/-- Witness for C7 at a concrete constant 2x2 slice. -/
theorem flat_slice_spec_instance :
    create_heart_mask ⟨2, 2, [[3, 3], [3, 3]]⟩ = .ok (create_heart_shape_mask 2 2)
    ∧ displayNormalize [[3, 3], [3, 3]] = .ok [[0, 0], [0, 0]] :=
  ⟨(flat_slice_spec ⟨2, 2, [[3, 3], [3, 3]]⟩ 3 (by simp [Slice.vals]) (by simp [Slice.vals])).2.2.2.1,
   (flat_slice_spec ⟨2, 2, [[3, 3], [3, 3]]⟩ 3 (by simp [Slice.vals]) (by simp [Slice.vals])).2.2.2.2⟩

/-- C2: `create_heart_mask` returns the thresholded band-pass mask when at
least 100 pixels pass, and otherwise the centered disc; pixelwise, the
thresholded mask holds `0.3 < (x - min) / (max - min + 1e-8) < 0.8` (strict on
both sides) and the disc mask holds "squared Euclidean distance from
`(shape[0]//2, shape[1]//2)` strictly below `(min(shape)//4)²`" (equivalently
`np.sqrt(d) < radius`, by `sqrt_lt_radius_iff`). -/
theorem region_mask_spec (s : Slice) (mn mx : ℚ)
    (hmn : npMin s.vals = some mn) (hmx : npMax s.vals = some mx) :
    create_heart_mask s
      = .ok (if countTrue (threshMask s mn mx) < 100
          then create_heart_shape_mask s.r s.c else threshMask s mn mx)
    ∧ (∀ i j, ∀ hi : i < s.data.length, j < (s.data.getD i []).length →
        ((threshMask s mn mx).getD i []).getD j false
          = decide ((3 : ℚ) / 10
                < ((s.data.getD i []).getD j 0 - mn) / (mx - mn + 1 / 100000000)
              ∧ ((s.data.getD i []).getD j 0 - mn) / (mx - mn + 1 / 100000000)
                < (8 : ℚ) / 10))
    ∧ (∀ y x, y < s.r → x < s.c →
        ((create_heart_shape_mask s.r s.c).getD y []).getD x false
          = decide (((x : ℤ) - (s.c / 2 : ℕ)) ^ 2 + ((y : ℤ) - (s.r / 2 : ℕ)) ^ 2
              < ((Nat.min s.r s.c / 4 : ℕ) : ℤ) ^ 2)) := by
  refine ⟨?_, ?_, ?_⟩
  · rw [create_heart_mask, hmn, hmx]
    dsimp only
    by_cases hc : countTrue (threshMask s mn mx) < 100
    · rw [if_pos hc, if_pos hc]
    · rw [if_neg hc, if_neg hc]
  · intro i j hi hj
    rw [List.getD_eq_getElem _ _ hi] at hj ⊢
    have hlen1 : i < (threshMask s mn mx).length := by
      rw [threshMask, List.length_map]
      exact hi
    rw [List.getD_eq_getElem _ _ hlen1]
    simp only [threshMask, List.getElem_map]
    have hj2 : j < (s.data[i].map (fun x =>
        decide ((3 : ℚ) / 10 < (x - mn) / (mx - mn + maskEps)
          ∧ (x - mn) / (mx - mn + maskEps) < (8 : ℚ) / 10))).length := by
      rw [List.length_map]
      exact hj
    rw [List.getD_eq_getElem _ _ hj2]
    simp only [List.getElem_map]
    rw [List.getD_eq_getElem _ _ hj]
    rfl
  · intro y x hy hx
    have hylen : y < (create_heart_shape_mask s.r s.c).length := by
      rw [create_heart_shape_mask, List.length_map, List.length_range]
      exact hy
    rw [List.getD_eq_getElem _ _ hylen]
    simp only [create_heart_shape_mask, List.getElem_map, List.getElem_range]
    have hxlen : x < ((List.range s.c).map (fun x : ℕ =>
        decide (((x : ℤ) - (s.c / 2 : ℕ)) ^ 2 + ((y : ℤ) - (s.r / 2 : ℕ)) ^ 2
          < ((Nat.min s.r s.c / 4 : ℕ) : ℤ) ^ 2))).length := by
      rw [List.length_map, List.length_range]
      exact hx
    rw [List.getD_eq_getElem _ _ hxlen]
    simp only [List.getElem_map, List.getElem_range]

/-- Witness for C2 at a concrete 1x2 slice (min 0, max 1; band empty, so the
disc fallback with radius 0 is selected). -/
theorem region_mask_spec_instance :
    create_heart_mask ⟨1, 2, [[0, 1]]⟩
      = .ok (if countTrue (threshMask ⟨1, 2, [[0, 1]]⟩ 0 1) < 100
          then create_heart_shape_mask 1 2 else threshMask ⟨1, 2, [[0, 1]]⟩ 0 1) :=
  (region_mask_spec ⟨1, 2, [[0, 1]]⟩ 0 1 (by with_unfolding_all rfl)
    (by with_unfolding_all rfl)).1

/-- C6 counterexample: a flat 2x2 slice triggers the disc fallback with radius
`min(2,2) // 4 = 0`, so `create_heart_mask` returns an entirely-false mask —
the guaranteed "non-empty mask" fails on this pathological input (spec §8
itself concedes the radius-0 degeneration). -/
theorem mask_empty_cex :
    create_heart_mask ⟨2, 2, [[0, 0], [0, 0]]⟩ = .ok [[false, false], [false, false]]
    ∧ ([[false, false], [false, false]] : List (List Bool)).any (fun row => row.any id)
        = false :=
  ⟨by with_unfolding_all rfl, rfl⟩

/-- C6 (amended): on a well-formed slice, `create_heart_mask` always returns a
mask of the slice's shape, and the mask contains at least one `true` pixel
provided the thresholded mask has at least 100 pixels or `min(shape) ≥ 4`
(i.e. the fallback disc radius `min(shape) // 4` is positive); whenever the
disc fallback fires with radius `min(shape) // 4 = 0` (fewer than 100
thresholded pixels and `min(shape) < 4`), the returned mask is entirely
false. -/
theorem mask_shape_nonempty_spec (s : Slice) (m : List (List Bool)) (hwf : s.wf)
    (h : create_heart_mask s = .ok m) :
    m.length = s.r ∧ (∀ row ∈ m, row.length = s.c)
    ∧ ((4 ≤ Nat.min s.r s.c
          ∨ 100 ≤ countTrue (threshMask s ((npMin s.vals).getD 0) ((npMax s.vals).getD 0)))
        → m.any (fun row => row.any id) = true)
    ∧ ((countTrue (threshMask s ((npMin s.vals).getD 0) ((npMax s.vals).getD 0)) < 100
          ∧ Nat.min s.r s.c < 4)
        → m.any (fun row => row.any id) = false) := by
  obtain ⟨hlen, hrowlen⟩ := hwf
  rw [create_heart_mask] at h
  cases hmn : npMin s.vals with
  | none =>
    rw [hmn] at h
    cases h
  | some mn =>
    rw [hmn] at h
    cases hmx : npMax s.vals with
    | none =>
      rw [hmx] at h
      cases h
    | some mx =>
      rw [hmx] at h
      dsimp only at h
      by_cases hc : countTrue (threshMask s mn mx) < 100
      · rw [if_pos hc] at h
        cases h
        refine ⟨?_, ?_, ?_, ?_⟩
        · rw [create_heart_shape_mask, List.length_map, List.length_range]
        · intro row hr
          rw [create_heart_shape_mask] at hr
          obtain ⟨y, _, rfl⟩ := List.mem_map.mp hr
          rw [List.length_map, List.length_range]
        · intro hor
          have h4 : 4 ≤ Nat.min s.r s.c := by
            rcases hor with h4 | hcnt
            · exact h4
            · simp only [Option.getD_some] at hcnt
              omega
          obtain ⟨h4r, h4c⟩ := Nat.le_min.mp h4
          rw [List.any_eq_true]
          refine ⟨_, List.mem_map.mpr ⟨s.r / 2, List.mem_range.mpr (by omega), rfl⟩, ?_⟩
          rw [List.any_eq_true]
          refine ⟨_, List.mem_map.mpr ⟨s.c / 2, List.mem_range.mpr (by omega), rfl⟩, ?_⟩
          simp only [id, decide_eq_true_eq]
          rw [sub_self, sub_self]
          have hrad : 1 ≤ Nat.min s.r s.c / 4 := by omega
          have hradz : (1 : ℤ) ≤ ((Nat.min s.r s.c / 4 : ℕ) : ℤ) := by exact_mod_cast hrad
          nlinarith
        · rintro ⟨_, hmin4⟩
          have hrad : Nat.min s.r s.c / 4 = 0 := by omega
          rw [List.any_eq_false]
          intro row hr
          rw [create_heart_shape_mask] at hr
          obtain ⟨y, _, rfl⟩ := List.mem_map.mp hr
          simp only [Bool.not_eq_true, List.any_eq_false]
          intro b hb
          obtain ⟨x, _, rfl⟩ := List.mem_map.mp hb
          simp only [id, Bool.not_eq_true, decide_eq_false_iff_not]
          rw [hrad]
          intro hlt
          simp only [Nat.cast_zero] at hlt
          have hx2 := sq_nonneg ((x : ℤ) - (s.c / 2 : ℕ))
          have hy2 := sq_nonneg ((y : ℤ) - (s.r / 2 : ℕ))
          nlinarith
      · rw [if_neg hc] at h
        cases h
        refine ⟨?_, ?_, ?_, ?_⟩
        · rw [threshMask, List.length_map, hlen]
        · intro row hr
          rw [threshMask] at hr
          obtain ⟨drow, hd, rfl⟩ := List.mem_map.mp hr
          rw [List.length_map]
          exact hrowlen drow hd
        · intro _
          exact any_of_countTrue_pos _ (by omega)
        · rintro ⟨hcnt, _⟩
          simp only [Option.getD_some] at hcnt
          exact absurd hcnt hc

/-- Witness for C6 (amended): an 8x8 flat slice falls back to a radius-2 disc,
which is non-empty. -/
theorem mask_shape_nonempty_spec_instance :
    (create_heart_shape_mask 8 8).any (fun row => row.any id) = true :=
  (mask_shape_nonempty_spec ⟨8, 8, List.replicate 8 (List.replicate 8 0)⟩
      (create_heart_shape_mask 8 8) (by simp [Slice.wf, List.mem_replicate])
      (by with_unfolding_all rfl)).2.2.1 (Or.inl (by decide))

/-- C10 counterexample: for the volume of shape `(1,1,0)` (last axis empty),
the failure is not min/max of an empty array in the mask normalizer — the
center-slice extraction `data[:, :, 0]` itself raises IndexError (index 0 into
an axis of extent 0), before any mask normalization runs. -/
theorem zero_extent_cex :
    pipeline3D ⟨1, 1, 0, [[[]]]⟩ (1, 1, 1) = .error (.unguarded indexErrMsg)
    ∧ indexErrMsg ≠ zeroSizeMsg :=
  ⟨rfl, by decide⟩

/-- C10 (amended): for a well-formed 3D volume with a zero-extent axis, the
pipeline fails with the unguarded IndexError at center-slice extraction (the
center index `extent // 2 = 0` is out of range for the empty axis), never with
one of the two documented domain errors; with all extents positive, the
pipeline succeeds.  The min/max-of-empty failure of the mask deriver exists
but is reachable only on an empty slice, and every slice handed to it by a
successful extraction on a positive-extent volume is non-empty. -/
theorem zero_extent_spec (v : Volume) (sp : ℚ × ℚ × ℚ) (hwf : v.wf) :
    ((v.n0 = 0 ∨ v.n1 = 0 ∨ v.n2 = 0) →
      pipeline3D v sp = .error (.unguarded indexErrMsg))
    ∧ (0 < v.n0 → 0 < v.n1 → 0 < v.n2 → (pipeline3D v sp).isOk = true)
    ∧ (∀ s : Slice, s.vals ≠ [] → (create_heart_mask s).isOk = true)
    ∧ (∀ s : Slice, s.vals = [] →
        create_heart_mask s = .error (.unguarded zeroSizeMsg)) := by
  refine ⟨?_, ?_, fun s hs => create_heart_mask_ok s hs,
    fun s hs => create_heart_mask_empty s hs⟩
  · intro h
    by_cases h2 : v.n2 = 0
    · have hax : extractAxial v (v.n2 / 2) = .error (.unguarded indexErrMsg) := by
        rw [extractAxial, if_neg (by omega)]
      rw [pipeline3D, hax]
    · by_cases h1 : v.n1 = 0
      · obtain ⟨d, hax, _, _⟩ :=
          extractAxial_wf_ok v hwf (v.n2 / 2) (Nat.div_lt_self (by omega) (by omega))
        have hcor : extractCoronal v (v.n1 / 2) = .error (.unguarded indexErrMsg) := by
          rw [extractCoronal, if_neg (by omega)]
        rw [pipeline3D, hax]
        dsimp only
        rw [hcor]
      · have h0 : v.n0 = 0 := by tauto
        obtain ⟨d, hax, _, _⟩ :=
          extractAxial_wf_ok v hwf (v.n2 / 2) (Nat.div_lt_self (by omega) (by omega))
        obtain ⟨d', hcor, _, _⟩ :=
          extractCoronal_wf_ok v hwf (v.n1 / 2) (Nat.div_lt_self (by omega) (by omega))
        have hsag : extractSagittal v (v.n0 / 2) = .error (.unguarded indexErrMsg) := by
          rw [extractSagittal, if_neg (by omega)]
        rw [pipeline3D, hax]
        dsimp only
        rw [hcor]
        dsimp only
        rw [hsag]
  · intro h0 h1 h2
    obtain ⟨da, hax, hal, har⟩ :=
      extractAxial_wf_ok v hwf (v.n2 / 2) (Nat.div_lt_self h2 (by omega))
    obtain ⟨dc, hcor, hcl, hcr⟩ :=
      extractCoronal_wf_ok v hwf (v.n1 / 2) (Nat.div_lt_self h1 (by omega))
    obtain ⟨ds, hsag, hsl, hsr⟩ :=
      extractSagittal_wf_ok v hwf (v.n0 / 2) (Nat.div_lt_self h0 (by omega))
    have hnea : (Slice.mk v.n0 v.n1 da).vals ≠ [] :=
      flatten_ne_nil da v.n1 (List.length_pos.mp (hal ▸ h0)) har h1
    have hnec : (Slice.mk v.n0 v.n2 dc).vals ≠ [] :=
      flatten_ne_nil dc v.n2 (List.length_pos.mp (hcl ▸ h0)) hcr h2
    have hnes : (Slice.mk v.n1 v.n2 ds).vals ≠ [] :=
      flatten_ne_nil ds v.n2 (List.length_pos.mp (hsl ▸ h1)) hsr h2
    obtain ⟨ma, hma⟩ := (except_isOk_iff _).mp (create_heart_mask_ok _ hnea)
    obtain ⟨mc, hmc⟩ := (except_isOk_iff _).mp (create_heart_mask_ok _ hnec)
    obtain ⟨ms, hms⟩ := (except_isOk_iff _).mp (create_heart_mask_ok _ hnes)
    rw [pipeline3D, hax]
    dsimp only
    rw [hcor]
    dsimp only
    rw [hsag]
    dsimp only
    rw [hma]
    dsimp only
    rw [hmc]
    dsimp only
    rw [hms]
    rfl

/-- Witness for C10 (amended) at the concrete empty-first-axis volume
`(0, 4, 4)`. -/
theorem zero_extent_spec_instance :
    pipeline3D ⟨0, 4, 4, []⟩ (1, 1, 1) = .error (.unguarded indexErrMsg) :=
  (zero_extent_spec ⟨0, 4, 4, []⟩ (1, 1, 1) (by simp [Volume.wf])).1 (Or.inl rfl)

/-- Every sextet's alphabet character decodes back to the sextet. -/
theorem dec_enc : ∀ n : ℕ, n < 64 → decChar (encChar n) = some n := by decide

/-- No alphabet character is the padding character. -/
theorem enc_ne_pad : ∀ n : ℕ, n < 64 → encChar n ≠ '=' := by decide

/-- Decoding inverts encoding on every byte stream (bytes below 256). -/
theorem b64decode_b64encode :
    ∀ l : List ℕ, (∀ b ∈ l, b < 256) → b64decode (b64encode l) = some l
  | [], _ => rfl
  | [a], h => by
    have ha : a < 256 := h a (by simp)
    rw [b64encode, b64decode]
    rw [dec_enc (a / 4) (by omega), dec_enc (a % 4 * 16) (by omega)]
    dsimp only
    rw [if_pos rfl, if_pos rfl, if_pos rfl]
    have hb : a / 4 * 4 + a % 4 * 16 / 16 = a := by omega
    rw [hb]
  | [a, b], h => by
    have ha : a < 256 := h a (by simp)
    have hb : b < 256 := h b (by simp)
    rw [b64encode, b64decode]
    rw [dec_enc (a / 4) (by omega), dec_enc (a % 4 * 16 + b / 16) (by omega),
      dec_enc (b % 16 * 4) (by omega)]
    dsimp only
    rw [if_pos rfl, if_neg (enc_ne_pad (b % 16 * 4) (by omega)), if_pos rfl]
    have h1 : a / 4 * 4 + (a % 4 * 16 + b / 16) / 16 = a := by omega
    have h2 : (a % 4 * 16 + b / 16) % 16 * 16 + b % 16 * 4 / 4 = b := by omega
    rw [h1, h2]
  | a :: b :: c :: rest, h => by
    have ha : a < 256 := h a (by simp)
    have hb : b < 256 := h b (by simp)
    have hc : c < 256 := h c (by simp)
    have ih := b64decode_b64encode rest (fun x hx => h x (by simp [hx]))
    rw [b64encode, b64decode]
    rw [dec_enc (a / 4) (by omega), dec_enc (a % 4 * 16 + b / 16) (by omega),
      dec_enc (b % 16 * 4 + c / 64) (by omega), dec_enc (c % 64) (by omega)]
    dsimp only
    rw [if_neg (enc_ne_pad (c % 64) (by omega)), ih]
    dsimp only
    have h1 : a / 4 * 4 + (a % 4 * 16 + b / 16) / 16 = a := by omega
    have h2 : (a % 4 * 16 + b / 16) % 16 * 16 + (b % 16 * 4 + c / 64) / 4 = b := by omega
    have h3 : (b % 16 * 4 + c / 64) % 4 * 64 + c % 64 = c := by omega
    rw [h1, h2, h3]

/-- C9: dropping the fixed `data:image/png;base64,` head of the returned data
URL leaves exactly the base64 payload; decoding it reproduces the PNG byte
stream, which is also exactly what was written to the per-axis debug file
(`b64decode` of the same payload) — the two artifacts are identical. -/
theorem b64_roundtrip_spec (png : List ℕ) (h : ∀ b ∈ png, b < 256) :
    (dataUrlOf png).drop dataUrlHead.length = b64encode png
    ∧ b64decode ((dataUrlOf png).drop dataUrlHead.length) = some png
    ∧ debugFileBytes png = some png
    ∧ b64decode ((dataUrlOf png).drop dataUrlHead.length) = debugFileBytes png := by
  have hdrop : (dataUrlOf png).drop dataUrlHead.length = b64encode png := by
    rw [dataUrlOf, List.drop_left]
  have hr := b64decode_b64encode png h
  rw [debugFileBytes, hdrop, hr]
  exact ⟨rfl, rfl, rfl, rfl⟩

/-- Witness for C9 at the four PNG magic bytes. -/
theorem b64_roundtrip_spec_instance :
    b64decode ((dataUrlOf [137, 80, 78, 71]).drop dataUrlHead.length)
      = some [137, 80, 78, 71]
    ∧ debugFileBytes [137, 80, 78, 71] = some [137, 80, 78, 71] :=
  ⟨(b64_roundtrip_spec [137, 80, 78, 71] (by decide)).2.1,
   (b64_roundtrip_spec [137, 80, 78, 71] (by decide)).2.2.1⟩

end Cardiology
